import Mathlib

/-!
Verification of the Snapshot / relationship-resolution core of the
repository (src/packages/ember-data/lib/system/snapshot.js).

The embedding models JavaScript object identity explicitly where the
claims depend on it: mutable objects (plain mappings such as
`_attributes`, and arrays such as the `[old, new]` changed-attribute
pairs) live in an explicit `Heap` and are referred to by numeric
addresses.  Live records form a `World` (a list of records indexed by
`Nat`, standing for the internal-model graph); relationships refer to
other records by index.  All operations are direct translations of the
functions in snapshot.js, with state (heap, snapshot caches) threaded
explicitly and thrown `Ember.Error`s rendered as `Except` errors.
-/

/-- JavaScript attribute values: primitives, `null`, `undefined`, or a
reference to a mutable (array) object in the heap. -/
inductive Val where
  | prim (n : Int)
  | ref (a : Nat)
  | vnull
  | vundef
deriving DecidableEq, Repr

/-- The mutable-object store.  `maps` holds plain-object mappings
(string-keyed, e.g. `this._attributes`), `arrays` holds array objects
(e.g. the `[old, new]` pairs).  `nextMap`/`nextArr` are the next fresh
addresses; allocation bumps them. -/
structure Heap where
  maps : Nat → List (String × Val)
  nextMap : Nat
  arrays : Nat → List Val
  nextArr : Nat

def Heap.mapAt (h : Heap) (a : Nat) : List (String × Val) :=
  h.maps a

def Heap.arrAt (h : Heap) (a : Nat) : List Val :=
  h.arrays a

/-- Allocate a fresh mapping object with the given contents
(`new EmptyObject()` followed by filling it in). -/
def Heap.allocMap (h : Heap) (m : List (String × Val)) : Heap × Nat :=
  ({ h with maps := fun x => if x = h.nextMap then m else h.maps x,
            nextMap := h.nextMap + 1 }, h.nextMap)

/-- Allocate a fresh array object with the given contents. -/
def Heap.allocArr (h : Heap) (xs : List Val) : Heap × Nat :=
  ({ h with arrays := fun x => if x = h.nextArr then xs else h.arrays x,
            nextArr := h.nextArr + 1 }, h.nextArr)

/-- In-place mutation of the mapping object at address `a`. -/
def Heap.setMap (h : Heap) (a : Nat) (m : List (String × Val)) : Heap :=
  { h with maps := fun x => if x = a then m else h.maps x }

/-- In-place mutation of the array object at address `a`. -/
def Heap.setArr (h : Heap) (a : Nat) (xs : List Val) : Heap :=
  { h with arrays := fun x => if x = a then xs else h.arrays x }

/-- The shallow `Ember.copy` applied to a single value: an array reference
is copied into a freshly allocated array with the same elements;
primitives, `null` and `undefined` are returned unchanged.  Used by
`changedAttributes()` on each stored `[old, new]` pair. -/
def emberCopy (h : Heap) (v : Val) : Heap × Val :=
  match v with
  | .ref a => ((h.allocArr (h.arrAt a)).1, .ref (h.allocArr (h.arrAt a)).2)
  | v => (h, v)

/-- Relationship kinds, `relationship.relationshipMeta.kind`. -/
inductive RelKind where
  | belongsTo
  | hasMany
deriving DecidableEq, Repr

/-- A relationship descriptor as read off the live record
(`this._internalModel._relationships.get(keyName)`): its kind, the
`hasData` flag, the `inverseRecord` (for belongsTo) and the ordered
`members` (for hasMany), both referring to records by world index. -/
structure Relationship where
  kind : RelKind
  hasData : Bool
  inverseRecord : Option Nat
  members : List Nat
deriving DecidableEq, Repr

/-- A live record / internal model: its `id`, the current values of its
declared attributes (in `eachAttribute` iteration order), the
`changedAttributes()` mapping (name to `[old, new]` pair value, usually
an array reference), the `isDeleted()` flag, and its relationship map. -/
structure LiveRecord where
  id : String
  attrs : List (String × Val)
  changedAttrs : List (String × Val)
  deleted : Bool
  relationships : List (String × Relationship)
deriving DecidableEq, Repr

instance : Inhabited LiveRecord :=
  ⟨{ id := "", attrs := [], changedAttrs := [], deleted := false,
     relationships := [] }⟩

/-- The live record graph: records addressed by index. -/
abbrev World := List LiveRecord

def getRecord (w : World) (i : Nat) : LiveRecord :=
  w.getD i default

/-- The kind of the relationship descriptor `k` names on record `i`
(`none` when no descriptor exists). -/
def relKindAt (w : World) (i : Nat) (k : String) : Option RelKind :=
  (List.lookup k (getRecord w i).relationships).map Relationship.kind

/-- Mutation of the live record: reassign attribute `k` of record `i`
to `v` (property assignment on the record object; the snapshot's own
capture object is untouched). -/
def setAttribute (w : World) (i : Nat) (k : String) (v : Val) : World :=
  w.set i { getRecord w i with attrs := (k, v) :: (getRecord w i).attrs }

/-- The per-snapshot captured state built by the `Snapshot` constructor:
heap addresses of the `_attributes` and `_changedAttributes` mapping
objects, the captured `id`, and the `_internalModel` back-reference. -/
structure SnapshotCore where
  _attributes : Nat
  _changedAttributes : Nat
  id : String
  _internalModel : Nat
deriving DecidableEq, Repr

/-- One element pushed into a `hasMany` result array: either a raw id
(`ids` mode) or a freshly constructed child snapshot (represented by its
core; a fresh snapshot's relationship caches are all empty). -/
inductive Member where
  | mstr (s : String)
  | msnap (core : SnapshotCore)
deriving DecidableEq, Repr

/-- The id carried by a hasMany result member. -/
def Member.mid : Member → String
  | .mstr s => s
  | .msnap core => core.id

/-- Whether a hasMany result member is a child snapshot. -/
def Member.isSnap : Member → Bool
  | .mstr _ => false
  | .msnap _ => true

/-- A value produced (and cached) by `belongsTo`/`hasMany`: `undef` is
the JavaScript `undefined` (the UNKNOWN sentinel), `nullv` is `null`,
`str` a raw id, `snap` a freshly constructed child snapshot, `arr` a
hasMany result array. -/
inductive SnapResult where
  | undef
  | nullv
  | str (s : String)
  | snap (core : SnapshotCore)
  | arr (xs : List Member)
deriving DecidableEq, Repr

/-- A snapshot: the captured core plus the four lazily filled
relationship caches (full-mode and id-mode, for belongsTo and hasMany).
A key's presence in a cache list models JavaScript's `keyName in obj`;
note that caching `undefined` still makes the key present. -/
structure Snapshot where
  core : SnapshotCore
  _belongsToRelationships : List (String × SnapResult)
  _belongsToIds : List (String × SnapResult)
  _hasManyRelationships : List (String × SnapResult)
  _hasManyIds : List (String × SnapResult)
deriving DecidableEq, Repr

/-- The belongsTo cache consulted under mode `idMode` (`options.id`). -/
def Snapshot.bCache (s : Snapshot) (idMode : Bool) : List (String × SnapResult) :=
  if idMode then s._belongsToIds else s._belongsToRelationships

/-- Store a belongsTo result under mode `idMode`
(`this._belongsToIds[keyName] = result` resp. `_belongsToRelationships`). -/
def Snapshot.bStore (s : Snapshot) (idMode : Bool) (k : String) (r : SnapResult) : Snapshot :=
  if idMode then { s with _belongsToIds := (k, r) :: s._belongsToIds }
  else { s with _belongsToRelationships := (k, r) :: s._belongsToRelationships }

/-- The hasMany cache consulted under mode `idsMode` (`options.ids`). -/
def Snapshot.hCache (s : Snapshot) (idsMode : Bool) : List (String × SnapResult) :=
  if idsMode then s._hasManyIds else s._hasManyRelationships

/-- Store a hasMany result under mode `idsMode`. -/
def Snapshot.hStore (s : Snapshot) (idsMode : Bool) (k : String) (r : SnapResult) : Snapshot :=
  if idsMode then { s with _hasManyIds := (k, r) :: s._hasManyIds }
  else { s with _hasManyRelationships := (k, r) :: s._hasManyRelationships }

/-- Errors thrown by the snapshot API (`throw new Ember.Error(...)`). -/
inductive SnapError where
  | unknownAttribute
  | unknownBelongsTo
  | unknownHasMany
deriving DecidableEq, Repr

/-- The eager part of the `Snapshot` constructor (snapshot.js lines
19-37): allocate the `_attributes` object and fill it with
`get(record, keyName)` for each declared attribute, take the record's
`changedAttributes()` mapping, and capture `id` and the
`_internalModel` reference.  Attribute values are stored by plain
assignment (no copying). -/
def buildCore (h : Heap) (w : World) (i : Nat) : Heap × SnapshotCore :=
  let record := getRecord w i
  let am := h.allocMap record.attrs
  let cm := am.1.allocMap record.changedAttrs
  (cm.1, { _attributes := am.2, _changedAttributes := cm.2,
           id := record.id, _internalModel := i })

/-- The operation `internalModel.createSnapshot()`: a freshly constructed snapshot has
all four relationship caches empty. -/
def createSnapshot (h : Heap) (w : World) (i : Nat) : Heap × Snapshot :=
  ((buildCore h w i).1,
   { core := (buildCore h w i).2,
     _belongsToRelationships := [], _belongsToIds := [],
     _hasManyRelationships := [], _hasManyIds := [] })

/-- The method `attr(keyName)` (lines 137-142): return `_attributes[keyName]` when
`keyName in this._attributes`, otherwise throw. -/
def Snapshot.attr (h : Heap) (s : Snapshot) (keyName : String) : Except SnapError Val :=
  match List.lookup keyName (h.mapAt s.core._attributes) with
  | some v => .ok v
  | none => .error .unknownAttribute

/-- The method `attributes()` (lines 157-159): `Ember.copy(this._attributes)`, a
freshly allocated object with the same entries; returns its address. -/
def Snapshot.attributes (h : Heap) (s : Snapshot) : Heap × Nat :=
  h.allocMap (h.mapAt s.core._attributes)

/-- The per-entry loop of `changedAttributes()`: copy each stored value
with `Ember.copy`, in key order. -/
def copyEntries (h : Heap) : List (String × Val) → Heap × List (String × Val)
  | [] => (h, [])
  | (k, v) :: rest =>
      let cv := emberCopy h v
      let cr := copyEntries cv.1 rest
      (cr.1, (k, cv.2) :: cr.2)

/-- The method `changedAttributes()` (lines 175-185): build a fresh mapping whose
value at each key of `this._changedAttributes` is an `Ember.copy` of the
stored `[old, new]` pair; returns the fresh object's address. -/
def Snapshot.changedAttributes (h : Heap) (s : Snapshot) : Heap × Nat :=
  (copyEntries h (h.mapAt s.core._changedAttributes)).1.allocMap
    (copyEntries h (h.mapAt s.core._changedAttributes)).2

/-- The `[old, new]` contents a caller observes for key `k` in the
result of a `changedAttributes()` call (dereferencing the returned
pair). -/
def changedPairObs (h : Heap) (s : Snapshot) (k : String) : Option (List Val) :=
  match List.lookup k ((Snapshot.changedAttributes h s).1.mapAt (Snapshot.changedAttributes h s).2) with
  | some (Val.ref q) => some ((Snapshot.changedAttributes h s).1.arrAt q)
  | _ => none

/-- The compound (array-object) contents an attribute observed through
`attr` dereferences to in heap `h`. -/
def attrDeref (h : Heap) (s : Snapshot) (k : String) : Option (List Val) :=
  match Snapshot.attr h s k with
  | .ok (Val.ref a) => some (h.arrAt a)
  | _ => none

/-- The resolution step of `belongsTo` once the descriptor is in hand
(lines 240-253): when `hasData` is false the result variable stays
`undefined`; otherwise a present, non-deleted `inverseRecord` yields its
id (id mode) or a freshly constructed child snapshot (full mode), and
anything else yields `null`. -/
def belongsToResult (h : Heap) (w : World) (rel : Relationship) (idMode : Bool) :
    Heap × SnapResult :=
  if rel.hasData then
    match rel.inverseRecord with
    | none => (h, .nullv)
    | some j =>
        if (getRecord w j).deleted then (h, .nullv)
        else if idMode then (h, .str (getRecord w j).id)
        else ((buildCore h w j).1, .snap (buildCore h w j).2)
  else (h, .undef)

/-- The method `belongsTo(keyName, options)` (lines 222-262): consult the mode's
cache first; on a miss look up the descriptor (throwing unless it exists
with kind belongsTo), resolve, store the result in the mode's cache
(caching even `undefined`), and return it. -/
def Snapshot.belongsTo (h : Heap) (w : World) (s : Snapshot) (keyName : String)
    (idMode : Bool) : Except SnapError (Heap × SnapResult × Snapshot) :=
  match List.lookup keyName (s.bCache idMode) with
  | some r => .ok (h, r, s)
  | none =>
      match List.lookup keyName (getRecord w s.core._internalModel).relationships with
      | none => .error .unknownBelongsTo
      | some rel =>
          if rel.kind = RelKind.belongsTo then
            .ok ((belongsToResult h w rel idMode).1,
                 (belongsToResult h w rel idMode).2,
                 s.bStore idMode keyName (belongsToResult h w rel idMode).2)
          else .error .unknownBelongsTo

/-- The `members.forEach` loop of `hasMany` (lines 315-324): skip
deleted members; push the member's id (ids mode) or a freshly
constructed child snapshot (full mode), threading heap allocations left
to right. -/
def resolveMembers (h : Heap) (w : World) (idsMode : Bool) : List Nat → Heap × List Member
  | [] => (h, [])
  | j :: rest =>
      if (getRecord w j).deleted then resolveMembers h w idsMode rest
      else if idsMode then
        let r := resolveMembers h w idsMode rest
        (r.1, .mstr (getRecord w j).id :: r.2)
      else
        let bc := buildCore h w j
        let r := resolveMembers bc.1 w idsMode rest
        (r.1, .msnap bc.2 :: r.2)

/-- The resolution step of `hasMany` once the descriptor is in hand
(lines 311-325): `undefined` when `hasData` is false, otherwise the
array built from the surviving members. -/
def hasManyResult (h : Heap) (w : World) (rel : Relationship) (idsMode : Bool) :
    Heap × SnapResult :=
  if rel.hasData then
    ((resolveMembers h w idsMode rel.members).1,
     .arr (resolveMembers h w idsMode rel.members).2)
  else (h, .undef)

/-- The method `hasMany(keyName, options)` (lines 293-334): consult the mode's
cache first; on a miss look up the descriptor (throwing unless it exists
with kind hasMany), resolve, store the result in the mode's cache
(caching even `undefined`), and return it. -/
def Snapshot.hasMany (h : Heap) (w : World) (s : Snapshot) (keyName : String)
    (idsMode : Bool) : Except SnapError (Heap × SnapResult × Snapshot) :=
  match List.lookup keyName (s.hCache idsMode) with
  | some r => .ok (h, r, s)
  | none =>
      match List.lookup keyName (getRecord w s.core._internalModel).relationships with
      | none => .error .unknownHasMany
      | some rel =>
          if rel.kind = RelKind.hasMany then
            .ok ((hasManyResult h w rel idsMode).1,
                 (hasManyResult h w rel idsMode).2,
                 s.hStore idsMode keyName (hasManyResult h w rel idsMode).2)
          else .error .unknownHasMany

/-! ### Basic heap lemmas -/

theorem Heap.mapAt_allocMap_self (h : Heap) (m : List (String × Val)) :
    (h.allocMap m).1.mapAt (h.allocMap m).2 = m := by
  simp [Heap.allocMap, Heap.mapAt]

theorem Heap.mapAt_allocMap_ne (h : Heap) (m : List (String × Val)) {b : Nat}
    (hb : b ≠ h.nextMap) : (h.allocMap m).1.mapAt b = h.mapAt b := by
  simp [Heap.allocMap, Heap.mapAt, hb]

theorem Heap.arrAt_allocMap (h : Heap) (m : List (String × Val)) (b : Nat) :
    (h.allocMap m).1.arrAt b = h.arrAt b := rfl

theorem Heap.nextArr_allocMap (h : Heap) (m : List (String × Val)) :
    (h.allocMap m).1.nextArr = h.nextArr := rfl

theorem Heap.nextMap_allocMap (h : Heap) (m : List (String × Val)) :
    (h.allocMap m).1.nextMap = h.nextMap + 1 := rfl

theorem Heap.arrAt_allocArr_self (h : Heap) (xs : List Val) :
    (h.allocArr xs).1.arrAt (h.allocArr xs).2 = xs := by
  simp [Heap.allocArr, Heap.arrAt]

theorem Heap.arrAt_allocArr_ne (h : Heap) (xs : List Val) {b : Nat}
    (hb : b ≠ h.nextArr) : (h.allocArr xs).1.arrAt b = h.arrAt b := by
  simp [Heap.allocArr, Heap.arrAt, hb]

theorem Heap.mapAt_allocArr (h : Heap) (xs : List Val) (b : Nat) :
    (h.allocArr xs).1.mapAt b = h.mapAt b := rfl

theorem Heap.nextMap_allocArr (h : Heap) (xs : List Val) :
    (h.allocArr xs).1.nextMap = h.nextMap := rfl

theorem Heap.nextArr_allocArr (h : Heap) (xs : List Val) :
    (h.allocArr xs).1.nextArr = h.nextArr + 1 := rfl

theorem Heap.mapAt_setArr (h : Heap) (a : Nat) (xs : List Val) (b : Nat) :
    (h.setArr a xs).mapAt b = h.mapAt b := rfl

theorem Heap.nextMap_setArr (h : Heap) (a : Nat) (xs : List Val) :
    (h.setArr a xs).nextMap = h.nextMap := rfl

theorem Heap.nextArr_setArr (h : Heap) (a : Nat) (xs : List Val) :
    (h.setArr a xs).nextArr = h.nextArr := rfl

theorem Heap.arrAt_setArr_self (h : Heap) (a : Nat) (xs : List Val) :
    (h.setArr a xs).arrAt a = xs := by
  simp [Heap.setArr, Heap.arrAt]

theorem Heap.arrAt_setArr_ne (h : Heap) (a : Nat) (xs : List Val) {b : Nat}
    (hb : b ≠ a) : (h.setArr a xs).arrAt b = h.arrAt b := by
  simp [Heap.setArr, Heap.arrAt, hb]

theorem Heap.arrAt_setMap (h : Heap) (a : Nat) (m : List (String × Val)) (b : Nat) :
    (h.setMap a m).arrAt b = h.arrAt b := rfl

theorem Heap.mapAt_setMap_ne (h : Heap) (a : Nat) (m : List (String × Val)) {b : Nat}
    (hb : b ≠ a) : (h.setMap a m).mapAt b = h.mapAt b := by
  simp [Heap.setMap, Heap.mapAt, hb]

/-! ### Cache lemmas -/

theorem Snapshot.lookup_bStore_self (s : Snapshot) (m : Bool) (k : String) (r : SnapResult) :
    List.lookup k ((s.bStore m k r).bCache m) = some r := by
  cases m <;> simp [Snapshot.bStore, Snapshot.bCache, List.lookup]

theorem Snapshot.core_bStore (s : Snapshot) (m : Bool) (k : String) (r : SnapResult) :
    (s.bStore m k r).core = s.core := by
  cases m <;> rfl

theorem Snapshot.lookup_hStore_self (s : Snapshot) (m : Bool) (k : String) (r : SnapResult) :
    List.lookup k ((s.hStore m k r).hCache m) = some r := by
  cases m <;> simp [Snapshot.hStore, Snapshot.hCache, List.lookup]

theorem Snapshot.core_hStore (s : Snapshot) (m : Bool) (k : String) (r : SnapResult) :
    (s.hStore m k r).core = s.core := by
  cases m <;> rfl

/-! ### Construction lemmas -/

theorem mapAt_createSnapshot_attrs (h : Heap) (w : World) (i : Nat) :
    (createSnapshot h w i).1.mapAt (createSnapshot h w i).2.core._attributes =
      (getRecord w i).attrs := by
  simp [createSnapshot, buildCore, Heap.allocMap, Heap.mapAt]

theorem mapAt_createSnapshot_changed (h : Heap) (w : World) (i : Nat) :
    (createSnapshot h w i).1.mapAt (createSnapshot h w i).2.core._changedAttributes =
      (getRecord w i).changedAttrs := by
  simp [createSnapshot, buildCore, Heap.allocMap, Heap.mapAt]

theorem arrAt_createSnapshot (h : Heap) (w : World) (i : Nat) (a : Nat) :
    (createSnapshot h w i).1.arrAt a = h.arrAt a := rfl

theorem id_createSnapshot (h : Heap) (w : World) (i : Nat) :
    (createSnapshot h w i).2.core.id = (getRecord w i).id := rfl

theorem attr_createSnapshot (h : Heap) (w : World) (i : Nat) (k : String) :
    Snapshot.attr (createSnapshot h w i).1 (createSnapshot h w i).2 k =
      (match List.lookup k (getRecord w i).attrs with
       | some v => .ok v
       | none => .error .unknownAttribute) := by
  unfold Snapshot.attr
  rw [mapAt_createSnapshot_attrs]

theorem getRecord_setAttribute_self (w : World) (i : Nat) (k : String) (v : Val)
    (hi : i < w.length) :
    getRecord (setAttribute w i k v) i =
      { getRecord w i with attrs := (k, v) :: (getRecord w i).attrs } := by
  simp [setAttribute, getRecord, List.getD, List.getElem?_set_self', hi]

/-! ### Concrete instances used by the witnesses -/

def emptyHeap : Heap :=
  { maps := fun _ => [], nextMap := 0, arrays := fun _ => [], nextArr := 0 }

/-- A post with one attribute, a belongsTo to record 1, and a hasMany
over records 1 and 2 (record 2 deleted). -/
def w0 : World :=
  [ { id := "1", attrs := [("title", Val.prim 5)], changedAttrs := [],
      deleted := false,
      relationships :=
        [("author", { kind := RelKind.belongsTo, hasData := true,
                      inverseRecord := some 1, members := [] }),
         ("comments", { kind := RelKind.hasMany, hasData := true,
                        inverseRecord := none, members := [1, 2] }),
         ("editor", { kind := RelKind.belongsTo, hasData := false,
                      inverseRecord := none, members := [] }),
         ("tags", { kind := RelKind.hasMany, hasData := false,
                    inverseRecord := none, members := [] }),
         ("likes", { kind := RelKind.hasMany, hasData := true,
                     inverseRecord := none, members := [2] }),
         ("reviewer", { kind := RelKind.belongsTo, hasData := true,
                        inverseRecord := some 2, members := [] })] },
    { id := "7", attrs := [], changedAttrs := [], deleted := false,
      relationships := [] },
    { id := "9", attrs := [], changedAttrs := [], deleted := true,
      relationships := [] } ]

/-! ### Claims -/

/-- C1: the method `attr(name)` returns the value the live record held at
snapshot-construction time, and reassigning the live record's attribute
after construction does not change what `attr(name)` returns: the
original snapshot still answers with the captured value, while the live
record (and a snapshot taken afterwards) shows the new one. -/
theorem attr_immutable_after_construction (h : Heap) (w : World) (i : Nat)
    (k : String) (u v : Val) (hi : i < w.length)
    (hk : List.lookup k (getRecord w i).attrs = some v) :
    Snapshot.attr (createSnapshot h w i).1 (createSnapshot h w i).2 k = .ok v
    ∧ List.lookup k (getRecord (setAttribute w i k u) i).attrs = some u
    ∧ Snapshot.attr (createSnapshot h (setAttribute w i k u) i).1
        (createSnapshot h (setAttribute w i k u) i).2 k = .ok u := by
  refine ⟨?_, ?_, ?_⟩
  · rw [attr_createSnapshot, hk]
  · rw [getRecord_setAttribute_self w i k u hi]
    simp [List.lookup]
  · rw [attr_createSnapshot, getRecord_setAttribute_self w i k u hi]
    simp [List.lookup]

/-- Witness for C1 at a concrete input: the snapshot still returns 5
after the live record's `title` is reassigned to 6. -/
theorem attr_immutable_after_construction_witness :
    Snapshot.attr (createSnapshot emptyHeap w0 0).1 (createSnapshot emptyHeap w0 0).2 "title"
        = .ok (Val.prim 5)
    ∧ List.lookup "title" (getRecord (setAttribute w0 0 "title" (Val.prim 6)) 0).attrs
        = some (Val.prim 6)
    ∧ Snapshot.attr (createSnapshot emptyHeap (setAttribute w0 0 "title" (Val.prim 6)) 0).1
        (createSnapshot emptyHeap (setAttribute w0 0 "title" (Val.prim 6)) 0).2 "title"
        = .ok (Val.prim 6) :=
  attr_immutable_after_construction emptyHeap w0 0 "title" (Val.prim 6) (Val.prim 5)
    (by decide) (by decide)

/-- C6: the method `attr(name)` returns the captured value for every name present
in the captured mapping (the record's declared attributes), and fails
with the unknown-attribute error exactly when the name was never
captured. -/
theorem attr_unknown_attribute_error (h : Heap) (w : World) (i : Nat)
    (k : String) (v : Val) :
    (List.lookup k (getRecord w i).attrs = some v →
       Snapshot.attr (createSnapshot h w i).1 (createSnapshot h w i).2 k = .ok v)
    ∧ (List.lookup k (getRecord w i).attrs = none →
       Snapshot.attr (createSnapshot h w i).1 (createSnapshot h w i).2 k
         = .error .unknownAttribute) := by
  constructor <;> intro hk <;> rw [attr_createSnapshot, hk]

/-- Witness for C6 at a concrete input: a declared attribute is
returned, an undeclared one throws. -/
theorem attr_unknown_attribute_error_witness :
    Snapshot.attr (createSnapshot emptyHeap w0 0).1 (createSnapshot emptyHeap w0 0).2 "title"
        = .ok (Val.prim 5)
    ∧ Snapshot.attr (createSnapshot emptyHeap w0 0).1 (createSnapshot emptyHeap w0 0).2 "doesNotExist"
        = .error .unknownAttribute :=
  ⟨(attr_unknown_attribute_error emptyHeap w0 0 "title" (Val.prim 5)).1 (by decide),
   (attr_unknown_attribute_error emptyHeap w0 0 "doesNotExist" (Val.prim 5)).2 (by decide)⟩

/-- Shorthand for the heap right after constructing a snapshot of
record 0 of `w0`. -/
def h0c : Heap := (createSnapshot emptyHeap w0 0).1

/-- Shorthand for a freshly constructed snapshot of record 0 of `w0`. -/
def s0 : Snapshot := (createSnapshot emptyHeap w0 0).2

/-- The world `w0` after the live record's relationships changed:
`author` now points at record 2, and data was loaded for `editor`. -/
def w1 : World :=
  [ { id := "1", attrs := [("title", Val.prim 5)], changedAttrs := [],
      deleted := false,
      relationships :=
        [("author", { kind := RelKind.belongsTo, hasData := true,
                      inverseRecord := some 2, members := [] }),
         ("comments", { kind := RelKind.hasMany, hasData := true,
                        inverseRecord := none, members := [1] }),
         ("editor", { kind := RelKind.belongsTo, hasData := true,
                      inverseRecord := some 1, members := [] }),
         ("tags", { kind := RelKind.hasMany, hasData := true,
                    inverseRecord := none, members := [1] })] },
    { id := "7", attrs := [], changedAttrs := [], deleted := false,
      relationships := [] },
    { id := "9", attrs := [], changedAttrs := [], deleted := false,
      relationships := [] } ]

/-! ### Resolution-path lemmas for belongsTo and hasMany -/

theorem belongsTo_resolve (h : Heap) (w : World) (s : Snapshot) (k : String) (m : Bool)
    (rel : Relationship)
    (hc : List.lookup k (s.bCache m) = none)
    (hrel : List.lookup k (getRecord w s.core._internalModel).relationships = some rel)
    (hkind : rel.kind = RelKind.belongsTo) :
    Snapshot.belongsTo h w s k m =
      .ok ((belongsToResult h w rel m).1, (belongsToResult h w rel m).2,
           s.bStore m k (belongsToResult h w rel m).2) := by
  unfold Snapshot.belongsTo
  simp only [hc, hrel]
  rw [if_pos hkind]

theorem hasMany_resolve (h : Heap) (w : World) (s : Snapshot) (k : String) (m : Bool)
    (rel : Relationship)
    (hc : List.lookup k (s.hCache m) = none)
    (hrel : List.lookup k (getRecord w s.core._internalModel).relationships = some rel)
    (hkind : rel.kind = RelKind.hasMany) :
    Snapshot.hasMany h w s k m =
      .ok ((hasManyResult h w rel m).1, (hasManyResult h w rel m).2,
           s.hStore m k (hasManyResult h w rel m).2) := by
  unfold Snapshot.hasMany
  simp only [hc, hrel]
  rw [if_pos hkind]

theorem belongsTo_cached (h : Heap) (w : World) (s : Snapshot) (k : String) (m : Bool)
    (r : SnapResult) (hc : List.lookup k (s.bCache m) = some r) :
    Snapshot.belongsTo h w s k m = .ok (h, r, s) := by
  unfold Snapshot.belongsTo
  rw [hc]

theorem hasMany_cached (h : Heap) (w : World) (s : Snapshot) (k : String) (m : Bool)
    (r : SnapResult) (hc : List.lookup k (s.hCache m) = some r) :
    Snapshot.hasMany h w s k m = .ok (h, r, s) := by
  unfold Snapshot.hasMany
  rw [hc]

/-- C2: each (relationship name, mode) pair is resolved at most once: if
a `belongsTo`/`hasMany` call under a mode returned a value, every later
call on the resulting snapshot under the same mode returns that
identical cached value, with no heap activity and no dependence on the
live record (the world and heap of the second call are arbitrary). -/
theorem relationship_resolve_once (h h1 h' : Heap) (w w' : World) (s s1 : Snapshot)
    (k : String) (m : Bool) (r : SnapResult) :
    (Snapshot.belongsTo h w s k m = .ok (h1, r, s1) →
       Snapshot.belongsTo h' w' s1 k m = .ok (h', r, s1))
    ∧ (Snapshot.hasMany h w s k m = .ok (h1, r, s1) →
       Snapshot.hasMany h' w' s1 k m = .ok (h', r, s1)) := by
  constructor
  · intro hb
    have hcache : List.lookup k (s1.bCache m) = some r := by
      unfold Snapshot.belongsTo at hb
      cases hc : List.lookup k (s.bCache m) with
      | some r0 =>
          simp only [hc, Except.ok.injEq, Prod.mk.injEq] at hb
          obtain ⟨-, hr, hs⟩ := hb
          rw [← hs, hc, hr]
      | none =>
          simp only [hc] at hb
          cases hrel : List.lookup k (getRecord w s.core._internalModel).relationships with
          | none => simp [hrel] at hb
          | some rel =>
              simp only [hrel] at hb
              by_cases hkind : rel.kind = RelKind.belongsTo
              · rw [if_pos hkind] at hb
                simp only [Except.ok.injEq, Prod.mk.injEq] at hb
                obtain ⟨-, hr, hs⟩ := hb
                rw [← hs, ← hr]
                exact Snapshot.lookup_bStore_self s m k _
              · rw [if_neg hkind] at hb
                simp at hb
    exact belongsTo_cached h' w' s1 k m r hcache
  · intro hb
    have hcache : List.lookup k (s1.hCache m) = some r := by
      unfold Snapshot.hasMany at hb
      cases hc : List.lookup k (s.hCache m) with
      | some r0 =>
          simp only [hc, Except.ok.injEq, Prod.mk.injEq] at hb
          obtain ⟨-, hr, hs⟩ := hb
          rw [← hs, hc, hr]
      | none =>
          simp only [hc] at hb
          cases hrel : List.lookup k (getRecord w s.core._internalModel).relationships with
          | none => simp [hrel] at hb
          | some rel =>
              simp only [hrel] at hb
              by_cases hkind : rel.kind = RelKind.hasMany
              · rw [if_pos hkind] at hb
                simp only [Except.ok.injEq, Prod.mk.injEq] at hb
                obtain ⟨-, hr, hs⟩ := hb
                rw [← hs, ← hr]
                exact Snapshot.lookup_hStore_self s m k _
              · rw [if_neg hkind] at hb
                simp at hb
    exact hasMany_cached h' w' s1 k m r hcache

/-- Witness for C2 at a concrete input: after the call `belongsTo('author',
{id:true})` resolved to `'7'`, the same call returns `'7'` from the
cache even though the live record's `author` now points at record 2 in
the changed world `w1`. -/
theorem relationship_resolve_once_witness :
    Snapshot.belongsTo emptyHeap w1 (s0.bStore true "author" (.str "7")) "author" true
      = .ok (emptyHeap, .str "7", s0.bStore true "author" (.str "7")) :=
  (relationship_resolve_once h0c h0c emptyHeap w0 w1 s0
      (s0.bStore true "author" (.str "7")) "author" true (.str "7")).1 (by rfl)

/-- C5: the methods `belongsTo`/`hasMany` fail synchronously with the
unknown-relationship error whenever (absent a cached entry for the
name under the queried mode) the name does not resolve to a descriptor
on the live record, or resolves to one whose kind does not match the
called operation. -/
theorem unknown_relationship_error (h : Heap) (w : World) (s : Snapshot)
    (k : String) (m : Bool) :
    (List.lookup k (s.bCache m) = none →
       relKindAt w s.core._internalModel k ≠ some RelKind.belongsTo →
       Snapshot.belongsTo h w s k m = .error .unknownBelongsTo)
    ∧ (List.lookup k (s.hCache m) = none →
       relKindAt w s.core._internalModel k ≠ some RelKind.hasMany →
       Snapshot.hasMany h w s k m = .error .unknownHasMany) := by
  constructor
  · intro hc hbad
    unfold Snapshot.belongsTo
    simp only [hc]
    cases hrel : List.lookup k (getRecord w s.core._internalModel).relationships with
    | none => rfl
    | some rel =>
        have hkind : ¬ rel.kind = RelKind.belongsTo := by
          intro hk
          exact hbad (by simp [relKindAt, hrel, hk])
        simp [hkind]
  · intro hc hbad
    unfold Snapshot.hasMany
    simp only [hc]
    cases hrel : List.lookup k (getRecord w s.core._internalModel).relationships with
    | none => rfl
    | some rel =>
        have hkind : ¬ rel.kind = RelKind.hasMany := by
          intro hk
          exact hbad (by simp [relKindAt, hrel, hk])
        simp [hkind]

/-- Witness for C5 at a concrete input: the calls `belongsTo('comments')` (a
hasMany name) and `hasMany('nosuch')` (no descriptor) both throw. -/
theorem unknown_relationship_error_witness :
    Snapshot.belongsTo h0c w0 s0 "comments" false = .error .unknownBelongsTo
    ∧ Snapshot.hasMany h0c w0 s0 "nosuch" false = .error .unknownHasMany :=
  ⟨(unknown_relationship_error h0c w0 s0 "comments" false).1 (by decide) (by decide),
   (unknown_relationship_error h0c w0 s0 "nosuch" false).2 (by decide) (by decide)⟩

theorem belongsToResult_no_data (h : Heap) (w : World) (rel : Relationship) (m : Bool)
    (hnd : rel.hasData = false) : belongsToResult h w rel m = (h, .undef) := by
  simp [belongsToResult, hnd]

theorem hasManyResult_no_data (h : Heap) (w : World) (rel : Relationship) (m : Bool)
    (hnd : rel.hasData = false) : hasManyResult h w rel m = (h, .undef) := by
  simp [hasManyResult, hnd]

/-- C10: an UNKNOWN outcome is itself cached per (name, mode): a first
call observing `hasData == false` returns `undefined` and leaves the
cache key present with value `undefined`, so every later call under
the same mode answers `undefined` from the cache without consulting
the live relationship — for any later world, including one where the
relationship's data has since been loaded. -/
theorem unknown_result_cached (h h' : Heap) (w w' : World) (s : Snapshot)
    (k : String) (m : Bool) (rel : Relationship)
    (hrel : List.lookup k (getRecord w s.core._internalModel).relationships = some rel)
    (hnd : rel.hasData = false) :
    (rel.kind = RelKind.belongsTo → List.lookup k (s.bCache m) = none →
       Snapshot.belongsTo h w s k m = .ok (h, .undef, s.bStore m k .undef)
       ∧ List.lookup k ((s.bStore m k .undef).bCache m) = some .undef
       ∧ Snapshot.belongsTo h' w' (s.bStore m k .undef) k m
           = .ok (h', .undef, s.bStore m k .undef))
    ∧ (rel.kind = RelKind.hasMany → List.lookup k (s.hCache m) = none →
       Snapshot.hasMany h w s k m = .ok (h, .undef, s.hStore m k .undef)
       ∧ List.lookup k ((s.hStore m k .undef).hCache m) = some .undef
       ∧ Snapshot.hasMany h' w' (s.hStore m k .undef) k m
           = .ok (h', .undef, s.hStore m k .undef)) := by
  constructor
  · intro hkind hc
    refine ⟨?_, Snapshot.lookup_bStore_self s m k _, ?_⟩
    · rw [belongsTo_resolve h w s k m rel hc hrel hkind,
          belongsToResult_no_data h w rel m hnd]
    · exact belongsTo_cached h' w' _ k m _ (Snapshot.lookup_bStore_self s m k _)
  · intro hkind hc
    refine ⟨?_, Snapshot.lookup_hStore_self s m k _, ?_⟩
    · rw [hasMany_resolve h w s k m rel hc hrel hkind,
          hasManyResult_no_data h w rel m hnd]
    · exact hasMany_cached h' w' _ k m _ (Snapshot.lookup_hStore_self s m k _)

/-- Witness for C10 at a concrete input: the call `belongsTo('editor')` resolves
to `undefined` (no data), the cache key becomes present, and the call
still answers `undefined` in the changed world `w1` where `editor` has
data pointing at record 1. -/
theorem unknown_result_cached_witness :
    (Snapshot.belongsTo h0c w0 s0 "editor" false
       = .ok (h0c, .undef, s0.bStore false "editor" .undef)
     ∧ List.lookup "editor" ((s0.bStore false "editor" .undef).bCache false) = some .undef
     ∧ Snapshot.belongsTo emptyHeap w1 (s0.bStore false "editor" .undef) "editor" false
       = .ok (emptyHeap, .undef, s0.bStore false "editor" .undef)) :=
  (unknown_result_cached h0c emptyHeap w0 w1 s0 "editor" false
      { kind := RelKind.belongsTo, hasData := false, inverseRecord := none, members := [] }
      (by decide) (by decide)).1 (by decide) (by decide)

/-! ### Member-resolution lemmas -/

theorem buildCore_id (h : Heap) (w : World) (j : Nat) :
    (buildCore h w j).2.id = (getRecord w j).id := rfl

theorem resolveMembers_all_deleted (h : Heap) (w : World) (m : Bool) (ms : List Nat)
    (hall : ms.filter (fun j => !(getRecord w j).deleted) = []) :
    resolveMembers h w m ms = (h, []) := by
  induction ms generalizing h with
  | nil => rfl
  | cons j rest ih =>
      by_cases hd : (getRecord w j).deleted
      · have hrest : rest.filter (fun j => !(getRecord w j).deleted) = [] := by
          simpa [List.filter_cons, hd] using hall
        simp [resolveMembers, hd, ih _ hrest]
      · exfalso
        simp [List.filter_cons, hd] at hall

theorem resolveMembers_map_mid (h : Heap) (w : World) (m : Bool) (ms : List Nat) :
    (resolveMembers h w m ms).2.map Member.mid
      = (ms.filter (fun j => !(getRecord w j).deleted)).map
          (fun j => (getRecord w j).id) := by
  induction ms generalizing h with
  | nil => rfl
  | cons j rest ih =>
      by_cases hd : (getRecord w j).deleted
      · simp [resolveMembers, hd, List.filter_cons, ih]
      · cases m
        · simp [resolveMembers, hd, List.filter_cons, ih, Member.mid, buildCore_id]
        · simp [resolveMembers, hd, List.filter_cons, ih, Member.mid]

theorem resolveMembers_all_isSnap (h : Heap) (w : World) (ms : List Nat) :
    (resolveMembers h w false ms).2.all Member.isSnap = true := by
  induction ms generalizing h with
  | nil => rfl
  | cons j rest ih =>
      by_cases hd : (getRecord w j).deleted
      · simp [resolveMembers, hd, ih]
      · simp [resolveMembers, hd, ih, Member.isSnap]

theorem resolveMembers_ids (h : Heap) (w : World) (ms : List Nat) :
    (resolveMembers h w true ms).2
      = (ms.filter (fun j => !(getRecord w j).deleted)).map
          (fun j => Member.mstr (getRecord w j).id) := by
  induction ms generalizing h with
  | nil => rfl
  | cons j rest ih =>
      by_cases hd : (getRecord w j).deleted
      · simp [resolveMembers, hd, List.filter_cons, ih]
      · simp [resolveMembers, hd, List.filter_cons, ih]

/-- C3: with `hasData == false` both `belongsTo` and `hasMany` return
the UNKNOWN sentinel (JavaScript `undefined`), which differs from
`null` and from the empty array; a `hasMany` with `hasData == true`
and no surviving member returns the empty array, so never-loaded and
known-empty are distinguishable. -/
theorem unknown_vs_empty (h : Heap) (w : World) (s : Snapshot) (k : String) (m : Bool)
    (rel : Relationship)
    (hrel : List.lookup k (getRecord w s.core._internalModel).relationships = some rel) :
    (rel.kind = RelKind.belongsTo → rel.hasData = false →
       List.lookup k (s.bCache m) = none →
       Snapshot.belongsTo h w s k m = .ok (h, .undef, s.bStore m k .undef))
    ∧ (rel.kind = RelKind.hasMany → rel.hasData = false →
       List.lookup k (s.hCache m) = none →
       Snapshot.hasMany h w s k m = .ok (h, .undef, s.hStore m k .undef))
    ∧ (rel.kind = RelKind.hasMany → rel.hasData = true →
       List.lookup k (s.hCache m) = none →
       rel.members.filter (fun j => !(getRecord w j).deleted) = [] →
       Snapshot.hasMany h w s k m = .ok (h, .arr [], s.hStore m k (.arr [])))
    ∧ SnapResult.undef ≠ SnapResult.nullv
    ∧ SnapResult.undef ≠ SnapResult.arr [] := by
  refine ⟨?_, ?_, ?_, by simp, by simp⟩
  · intro hkind hnd hc
    rw [belongsTo_resolve h w s k m rel hc hrel hkind,
        belongsToResult_no_data h w rel m hnd]
  · intro hkind hnd hc
    rw [hasMany_resolve h w s k m rel hc hrel hkind,
        hasManyResult_no_data h w rel m hnd]
  · intro hkind hd hc hsurv
    rw [hasMany_resolve h w s k m rel hc hrel hkind]
    have : hasManyResult h w rel m = (h, .arr []) := by
      simp [hasManyResult, hd, resolveMembers_all_deleted h w m rel.members hsurv]
    rw [this]

/-- Witness for C3 at a concrete input: the call `hasMany('tags')` (never
loaded) yields `undefined` while `hasMany('likes')` (loaded, lone
member deleted) yields the empty array. -/
theorem unknown_vs_empty_witness :
    Snapshot.hasMany h0c w0 s0 "tags" false = .ok (h0c, .undef, s0.hStore false "tags" .undef)
    ∧ Snapshot.hasMany h0c w0 s0 "likes" false
        = .ok (h0c, .arr [], s0.hStore false "likes" (.arr []))
    ∧ SnapResult.undef ≠ SnapResult.nullv
    ∧ SnapResult.undef ≠ SnapResult.arr [] :=
  ⟨((unknown_vs_empty h0c w0 s0 "tags" false
        { kind := RelKind.hasMany, hasData := false, inverseRecord := none, members := [] }
        (by decide)).2.1 (by decide) (by decide) (by decide)),
   ((unknown_vs_empty h0c w0 s0 "likes" false
        { kind := RelKind.hasMany, hasData := true, inverseRecord := none, members := [2] }
        (by decide)).2.2.1 (by decide) (by decide) (by decide) (by decide)),
   by simp, by simp⟩

/-- C4: deleted related records are excluded: a belongsTo whose present
inverse record is deleted resolves to `null`; a hasMany result contains
exactly the non-deleted members, in relationship order (its projection
to ids equals the ids of the surviving members), each rendered as a
child snapshot in full mode and exactly as the surviving ids in ids
mode. -/
theorem deleted_excluded (h : Heap) (w : World) (s : Snapshot) (k : String) (m : Bool)
    (rel : Relationship) (j : Nat)
    (hrel : List.lookup k (getRecord w s.core._internalModel).relationships = some rel) :
    (rel.kind = RelKind.belongsTo → rel.hasData = true →
       rel.inverseRecord = some j → (getRecord w j).deleted = true →
       List.lookup k (s.bCache m) = none →
       Snapshot.belongsTo h w s k m = .ok (h, .nullv, s.bStore m k .nullv))
    ∧ (rel.kind = RelKind.hasMany → rel.hasData = true →
       List.lookup k (s.hCache m) = none →
       Snapshot.hasMany h w s k m =
         .ok ((resolveMembers h w m rel.members).1,
              .arr (resolveMembers h w m rel.members).2,
              s.hStore m k (.arr (resolveMembers h w m rel.members).2))
       ∧ (resolveMembers h w m rel.members).2.map Member.mid
           = (rel.members.filter (fun j2 => !(getRecord w j2).deleted)).map
               (fun j2 => (getRecord w j2).id)
       ∧ (m = false → (resolveMembers h w m rel.members).2.all Member.isSnap = true)
       ∧ (m = true → (resolveMembers h w m rel.members).2
           = (rel.members.filter (fun j2 => !(getRecord w j2).deleted)).map
               (fun j2 => Member.mstr (getRecord w j2).id))) := by
  constructor
  · intro hkind hd hinv hdel hc
    rw [belongsTo_resolve h w s k m rel hc hrel hkind]
    have : belongsToResult h w rel m = (h, .nullv) := by
      simp [belongsToResult, hd, hinv, hdel]
    rw [this]
  · intro hkind hd hc
    refine ⟨?_, resolveMembers_map_mid h w m rel.members, ?_, ?_⟩
    · rw [hasMany_resolve h w s k m rel hc hrel hkind]
      have : hasManyResult h w rel m
          = ((resolveMembers h w m rel.members).1,
             .arr (resolveMembers h w m rel.members).2) := by
        simp [hasManyResult, hd]
      rw [this]
    · intro hm
      rw [hm]
      exact resolveMembers_all_isSnap h w rel.members
    · intro hm
      rw [hm]
      exact resolveMembers_ids h w rel.members

/-- Witness for C4 at a concrete input: the call `belongsTo('reviewer')` whose
inverse record 2 is deleted yields `null`, and `hasMany('comments',
{ids:true})` over members `[1, 2]` with record 2 deleted yields
`['7']`. -/
theorem deleted_excluded_witness :
    Snapshot.belongsTo h0c w0 s0 "reviewer" false
        = .ok (h0c, .nullv, s0.bStore false "reviewer" .nullv)
    ∧ Snapshot.hasMany h0c w0 s0 "comments" true
        = .ok (h0c, .arr [.mstr "7"], s0.hStore true "comments" (.arr [.mstr "7"])) :=
  ⟨((deleted_excluded h0c w0 s0 "reviewer" false
        { kind := RelKind.belongsTo, hasData := true, inverseRecord := some 2, members := [] } 2
        (by decide)).1 (by decide) (by decide) (by decide) (by decide) (by decide)),
   ((deleted_excluded h0c w0 s0 "comments" true
        { kind := RelKind.hasMany, hasData := true, inverseRecord := none, members := [1, 2] } 0
        (by decide)).2 (by decide) (by decide) (by decide)).1⟩

/-- C7: a belongsTo with data and a present, non-deleted inverse record
resolves, in id mode, to the inverse record's id and, in full mode, to
a freshly constructed child snapshot of the inverse record, whose `id`
equals the inverse record's id. -/
theorem belongs_to_present (h : Heap) (w : World) (s : Snapshot) (k : String)
    (rel : Relationship) (j : Nat)
    (hrel : List.lookup k (getRecord w s.core._internalModel).relationships = some rel)
    (hkind : rel.kind = RelKind.belongsTo) (hd : rel.hasData = true)
    (hinv : rel.inverseRecord = some j) (hdel : (getRecord w j).deleted = false) :
    (List.lookup k (s.bCache true) = none →
       Snapshot.belongsTo h w s k true
         = .ok (h, .str (getRecord w j).id, s.bStore true k (.str (getRecord w j).id)))
    ∧ (List.lookup k (s.bCache false) = none →
       Snapshot.belongsTo h w s k false
         = .ok ((buildCore h w j).1, .snap (buildCore h w j).2,
                s.bStore false k (.snap (buildCore h w j).2))
       ∧ (buildCore h w j).2.id = (getRecord w j).id) := by
  constructor
  · intro hc
    rw [belongsTo_resolve h w s k true rel hc hrel hkind]
    have : belongsToResult h w rel true = (h, .str (getRecord w j).id) := by
      simp [belongsToResult, hd, hinv, hdel]
    rw [this]
  · intro hc
    refine ⟨?_, buildCore_id h w j⟩
    rw [belongsTo_resolve h w s k false rel hc hrel hkind]
    have : belongsToResult h w rel false
        = ((buildCore h w j).1, .snap (buildCore h w j).2) := by
      simp [belongsToResult, hd, hinv, hdel]
    rw [this]

/-- Witness for C7 at a concrete input: the id-mode call on `author`
is `'7'` and `belongsTo('author')` is a child snapshot whose id is
`'7'`. -/
theorem belongs_to_present_witness :
    Snapshot.belongsTo h0c w0 s0 "author" true
        = .ok (h0c, .str "7", s0.bStore true "author" (.str "7"))
    ∧ Snapshot.belongsTo h0c w0 s0 "author" false
        = .ok ((buildCore h0c w0 1).1, .snap (buildCore h0c w0 1).2,
               s0.bStore false "author" (.snap (buildCore h0c w0 1).2))
    ∧ (buildCore h0c w0 1).2.id = "7" :=
  ⟨((belongs_to_present h0c w0 s0 "author"
        { kind := RelKind.belongsTo, hasData := true, inverseRecord := some 1, members := [] } 1
        (by decide) (by decide) (by decide) (by decide) (by decide)).1 (by decide)),
   ((belongs_to_present h0c w0 s0 "author"
        { kind := RelKind.belongsTo, hasData := true, inverseRecord := some 1, members := [] } 1
        (by decide) (by decide) (by decide) (by decide) (by decide)).2 (by decide)).1,
   ((belongs_to_present h0c w0 s0 "author"
        { kind := RelKind.belongsTo, hasData := true, inverseRecord := some 1, members := [] } 1
        (by decide) (by decide) (by decide) (by decide) (by decide)).2 (by decide)).2⟩

/-! ### Copy lemmas for Ember.copy and the changedAttributes loop -/

theorem emberCopy_nextArr_le (h : Heap) (v : Val) :
    h.nextArr ≤ (emberCopy h v).1.nextArr := by
  cases v <;> simp [emberCopy, Heap.allocArr]

theorem emberCopy_arrAt_lt (h : Heap) (v : Val) {b : Nat} (hb : b < h.nextArr) :
    (emberCopy h v).1.arrAt b = h.arrAt b := by
  cases v with
  | ref a => exact Heap.arrAt_allocArr_ne h _ (Nat.ne_of_lt hb)
  | prim n => rfl
  | vnull => rfl
  | vundef => rfl

theorem emberCopy_mapAt (h : Heap) (v : Val) (b : Nat) :
    (emberCopy h v).1.mapAt b = h.mapAt b := by
  cases v <;> rfl

theorem emberCopy_nextMap (h : Heap) (v : Val) :
    (emberCopy h v).1.nextMap = h.nextMap := by
  cases v <;> rfl

theorem copyEntries_nextArr_le (c : List (String × Val)) (h : Heap) :
    h.nextArr ≤ (copyEntries h c).1.nextArr := by
  induction c generalizing h with
  | nil => exact le_refl _
  | cons kv rest ih =>
      obtain ⟨k0, v0⟩ := kv
      exact le_trans (emberCopy_nextArr_le h v0) (ih _)

theorem copyEntries_arrAt_lt (c : List (String × Val)) (h : Heap) {b : Nat}
    (hb : b < h.nextArr) : (copyEntries h c).1.arrAt b = h.arrAt b := by
  induction c generalizing h with
  | nil => rfl
  | cons kv rest ih =>
      obtain ⟨k0, v0⟩ := kv
      rw [copyEntries]
      rw [ih _ (lt_of_lt_of_le hb (emberCopy_nextArr_le h v0)),
          emberCopy_arrAt_lt h v0 hb]

theorem copyEntries_mapAt (c : List (String × Val)) (h : Heap) (b : Nat) :
    (copyEntries h c).1.mapAt b = h.mapAt b := by
  induction c generalizing h with
  | nil => rfl
  | cons kv rest ih =>
      obtain ⟨k0, v0⟩ := kv
      rw [copyEntries, ih _, emberCopy_mapAt]

theorem copyEntries_nextMap (c : List (String × Val)) (h : Heap) :
    (copyEntries h c).1.nextMap = h.nextMap := by
  induction c generalizing h with
  | nil => rfl
  | cons kv rest ih =>
      obtain ⟨k0, v0⟩ := kv
      rw [copyEntries, ih _, emberCopy_nextMap]

/-- The value `changedAttributes()` stores for a looked-up key: a
reference to a freshly allocated array holding the same contents as the
stored pair. -/
theorem copyEntries_lookup_ref (k : String) (p : Nat) :
    ∀ (c : List (String × Val)) (h : Heap),
      List.lookup k c = some (Val.ref p) → p < h.nextArr →
      ∃ q, List.lookup k (copyEntries h c).2 = some (Val.ref q)
        ∧ h.nextArr ≤ q
        ∧ (copyEntries h c).1.arrAt q = h.arrAt p := by
  intro c
  induction c with
  | nil =>
      intro h hk hp
      simp [List.lookup] at hk
  | cons kv rest ih =>
      intro h hk hp
      obtain ⟨k0, v0⟩ := kv
      rw [List.lookup] at hk
      cases hkk : (k == k0) with
      | true =>
          rw [hkk] at hk
          injection hk with hv
          subst hv
          refine ⟨h.nextArr, ?_, le_refl _, ?_⟩
          · rw [copyEntries, List.lookup, hkk]
            rfl
          · rw [copyEntries]
            have hlt : h.nextArr < (emberCopy h (Val.ref p)).1.nextArr := by
              simp [emberCopy, Heap.allocArr]
            rw [copyEntries_arrAt_lt rest _ hlt]
            exact Heap.arrAt_allocArr_self h _
      | false =>
          rw [hkk] at hk
          obtain ⟨q, hq1, hq2, hq3⟩ :=
            ih (emberCopy h v0).1 hk (lt_of_lt_of_le hp (emberCopy_nextArr_le h v0))
          refine ⟨q, ?_, le_trans (emberCopy_nextArr_le h v0) hq2, ?_⟩
          · rw [copyEntries, List.lookup, hkk, hq1]
          · rw [copyEntries, hq3, emberCopy_arrAt_lt h v0 hp]

/-- Observation lemma: when the stored changed-attribute value at `kc`
is a pair reference, `changedAttributes()` hands the caller a copy whose
contents equal the stored pair's. -/
theorem changedPairObs_eq (h : Heap) (s : Snapshot) (kc : String) (p : Nat)
    (hp : List.lookup kc (h.mapAt s.core._changedAttributes) = some (Val.ref p))
    (hpa : p < h.nextArr) :
    changedPairObs h s kc = some (h.arrAt p) := by
  obtain ⟨q, hq1, hq2, hq3⟩ :=
    copyEntries_lookup_ref kc p (h.mapAt s.core._changedAttributes) h hp hpa
  unfold changedPairObs
  simp only [Snapshot.changedAttributes, Heap.mapAt_allocMap_self, hq1]
  rw [Heap.arrAt_allocMap, hq3]

/-- C8: the methods `attributes()` and `changedAttributes()` return defensive
copies.  `attributes()` returns a fresh object (a different address
than the internal `_attributes`) with equal contents, and overwriting
the returned object leaves the internal mapping — and hence `attr` —
unchanged.  `changedAttributes()` shows the caller the stored pair's
contents through a copy, and mutating any array the call freshly
allocated (in particular the returned pair, whose address is at least
`h.nextArr`) leaves the stored mapping and the stored pair unchanged,
so a later `changedAttributes()` call observes the original contents. -/
theorem defensive_copies (h : Heap) (s : Snapshot) (k kc : String) (p : Nat)
    (m' : List (String × Val)) (xs : List Val) (a : Nat)
    (hva : s.core._attributes < h.nextMap)
    (hvc : s.core._changedAttributes < h.nextMap)
    (hp : List.lookup kc (h.mapAt s.core._changedAttributes) = some (Val.ref p))
    (hpa : p < h.nextArr)
    (hfresh : h.nextArr ≤ a) :
    ((Snapshot.attributes h s).2 ≠ s.core._attributes
     ∧ (Snapshot.attributes h s).1.mapAt (Snapshot.attributes h s).2
         = h.mapAt s.core._attributes
     ∧ ((Snapshot.attributes h s).1.setMap (Snapshot.attributes h s).2 m').mapAt
           s.core._attributes = h.mapAt s.core._attributes
     ∧ Snapshot.attr ((Snapshot.attributes h s).1.setMap (Snapshot.attributes h s).2 m') s k
         = Snapshot.attr h s k)
    ∧ (changedPairObs h s kc = some (h.arrAt p)
       ∧ ((Snapshot.changedAttributes h s).1.setArr a xs).mapAt s.core._changedAttributes
           = h.mapAt s.core._changedAttributes
       ∧ ((Snapshot.changedAttributes h s).1.setArr a xs).arrAt p = h.arrAt p
       ∧ changedPairObs ((Snapshot.changedAttributes h s).1.setArr a xs) s kc
           = some (h.arrAt p)) := by
  have hattr : ((Snapshot.attributes h s).1.setMap (Snapshot.attributes h s).2 m').mapAt
      s.core._attributes = h.mapAt s.core._attributes := by
    simp only [Snapshot.attributes]
    rw [Heap.mapAt_setMap_ne _ _ _ (by simp [Heap.allocMap]; omega),
        Heap.mapAt_allocMap_ne h _ (by omega)]
  have hm1 : ((Snapshot.changedAttributes h s).1.setArr a xs).mapAt
      s.core._changedAttributes = h.mapAt s.core._changedAttributes := by
    rw [Heap.mapAt_setArr]
    simp only [Snapshot.changedAttributes]
    rw [Heap.mapAt_allocMap_ne _ _ (by rw [copyEntries_nextMap]; omega),
        copyEntries_mapAt]
  have hm2 : ((Snapshot.changedAttributes h s).1.setArr a xs).arrAt p = h.arrAt p := by
    rw [Heap.arrAt_setArr_ne _ _ _ (by omega)]
    simp only [Snapshot.changedAttributes]
    rw [Heap.arrAt_allocMap, copyEntries_arrAt_lt _ _ hpa]
  have hn2 : p < ((Snapshot.changedAttributes h s).1.setArr a xs).nextArr := by
    rw [Heap.nextArr_setArr]
    simp only [Snapshot.changedAttributes]
    rw [Heap.nextArr_allocMap]
    exact lt_of_lt_of_le hpa (copyEntries_nextArr_le _ h)
  refine ⟨⟨?_, ?_, hattr, ?_⟩, changedPairObs_eq h s kc p hp hpa, hm1, hm2, ?_⟩
  · simp only [Snapshot.attributes, Heap.allocMap]
    omega
  · simp only [Snapshot.attributes]
    exact Heap.mapAt_allocMap_self h _
  · unfold Snapshot.attr
    rw [hattr]
  · have := changedPairObs_eq ((Snapshot.changedAttributes h s).1.setArr a xs) s kc p
      (by rw [hm1]; exact hp) hn2
    rw [this, hm2]

/-- A record with one changed attribute whose `[old, new]` pair lives in
array 0 of the starting heap. -/
def wA : World :=
  [ { id := "1", attrs := [("title", Val.prim 2)],
      changedAttrs := [("title", Val.ref 0)], deleted := false,
      relationships := [] } ]

/-- The starting heap for `wA`: array 0 holds the pair `[1, 2]`. -/
def hA : Heap :=
  { maps := fun _ => [], nextMap := 0,
    arrays := fun x => if x = 0 then [Val.prim 1, Val.prim 2] else [], nextArr := 1 }

/-- Heap after constructing a snapshot of record 0 of `wA`. -/
def h2c : Heap := (createSnapshot hA wA 0).1

/-- A freshly constructed snapshot of record 0 of `wA`. -/
def s2 : Snapshot := (createSnapshot hA wA 0).2

/-- Witness for C8 at a concrete input: the returned attributes object
is fresh, overwriting it changes nothing internal, and mutating the
returned `[old, new]` pair (the array allocated at address 1) leaves
the stored pair's contents observable unchanged. -/
theorem defensive_copies_witness :
    ((Snapshot.attributes h2c s2).2 ≠ s2.core._attributes
     ∧ (Snapshot.attributes h2c s2).1.mapAt (Snapshot.attributes h2c s2).2
         = h2c.mapAt s2.core._attributes
     ∧ ((Snapshot.attributes h2c s2).1.setMap (Snapshot.attributes h2c s2).2 []).mapAt
           s2.core._attributes = h2c.mapAt s2.core._attributes
     ∧ Snapshot.attr ((Snapshot.attributes h2c s2).1.setMap (Snapshot.attributes h2c s2).2 []) s2 "title"
         = Snapshot.attr h2c s2 "title")
    ∧ (changedPairObs h2c s2 "title" = some (h2c.arrAt 0)
       ∧ ((Snapshot.changedAttributes h2c s2).1.setArr 1 [Val.prim 9]).mapAt
             s2.core._changedAttributes = h2c.mapAt s2.core._changedAttributes
       ∧ ((Snapshot.changedAttributes h2c s2).1.setArr 1 [Val.prim 9]).arrAt 0 = h2c.arrAt 0
       ∧ changedPairObs ((Snapshot.changedAttributes h2c s2).1.setArr 1 [Val.prim 9]) s2 "title"
           = some (h2c.arrAt 0)) :=
  defensive_copies h2c s2 "title" "title" 0 [] [Val.prim 9] 1
    (by decide) (by decide) (by decide) (by decide) (by decide)

/-- A record whose sole attribute value is a reference to the compound
object stored in array 0 of `h9`. -/
def w9 : World :=
  [ { id := "1", attrs := [("tags", Val.ref 0)], changedAttrs := [],
      deleted := false, relationships := [] } ]

/-- The starting heap for `w9`: array 0 holds `[1]`. -/
def h9 : Heap :=
  { maps := fun _ => [], nextMap := 0,
    arrays := fun x => if x = 0 then [Val.prim 1] else [], nextArr := 1 }

/-- Counterexample to C9 as stated: the constructor stores
`get(record, keyName)` by plain assignment, so a compound attribute
value is shared with the live record, not copied.  After in-place
mutation of the record's compound object (array 0), the value observed
through the snapshot's capture is the mutated contents, no longer the
construction-time contents. -/
theorem capture_copies_counterexample :
    attrDeref (createSnapshot h9 w9 0).1 (createSnapshot h9 w9 0).2 "tags"
        = some [Val.prim 1]
    ∧ attrDeref ((createSnapshot h9 w9 0).1.setArr 0 [Val.prim 2])
          (createSnapshot h9 w9 0).2 "tags" = some [Val.prim 2]
    ∧ some [Val.prim 2] ≠ some [Val.prim 1] := by
  refine ⟨by decide, by decide, by decide⟩

/-- C9 amended: at construction time compound attribute values are
captured by reference, not copied — the snapshot stores the very same
reference the live record holds, construction allocates no array, and
in-place mutation of the shared object after construction is visible
through the snapshot's capture.  (Copies are made only later, at read
time, by `attributes()`/`changedAttributes()`; isolation holds only
against reassignment of the record's attribute, per C1.) -/
theorem capture_by_reference (h : Heap) (w : World) (i : Nat) (k : String)
    (a : Nat) (xs : List Val)
    (hk : List.lookup k (getRecord w i).attrs = some (Val.ref a)) :
    Snapshot.attr (createSnapshot h w i).1 (createSnapshot h w i).2 k = .ok (Val.ref a)
    ∧ (createSnapshot h w i).1.arrAt a = h.arrAt a
    ∧ attrDeref ((createSnapshot h w i).1.setArr a xs) (createSnapshot h w i).2 k
        = some xs := by
  refine ⟨by rw [attr_createSnapshot, hk], rfl, ?_⟩
  have hat : Snapshot.attr ((createSnapshot h w i).1.setArr a xs)
      (createSnapshot h w i).2 k = .ok (Val.ref a) := by
    unfold Snapshot.attr
    rw [Heap.mapAt_setArr]
    have : (createSnapshot h w i).1.mapAt (createSnapshot h w i).2.core._attributes
        = (getRecord w i).attrs := mapAt_createSnapshot_attrs h w i
    rw [this, hk]
  unfold attrDeref
  simp only [hat]
  rw [Heap.arrAt_setArr_self]

/-- Witness for the amended C9 at a concrete input: the snapshot hands
back the shared reference, and after in-place mutation dereferencing
through the snapshot yields the new contents. -/
theorem capture_by_reference_witness :
    Snapshot.attr (createSnapshot h9 w9 0).1 (createSnapshot h9 w9 0).2 "tags"
        = .ok (Val.ref 0)
    ∧ (createSnapshot h9 w9 0).1.arrAt 0 = h9.arrAt 0
    ∧ attrDeref ((createSnapshot h9 w9 0).1.setArr 0 [Val.prim 2])
          (createSnapshot h9 w9 0).2 "tags" = some [Val.prim 2] :=
  capture_by_reference h9 w9 0 "tags" 0 [Val.prim 2] (by decide)
